import Mathlib

/-!
Verification of the forecast-selection and refresh logic of
`homeassistant/components/sensor/yr.py` and of the Z-Wave device-config
HTTP endpoint, as a shallow embedding in Lean.

Timestamps are modelled as integers (seconds); `datetime` subtraction and
`total_seconds()` on whole-second datetimes yield exactly these integers.
Python's stable `list.sort(key=...)` is modelled by `List.mergeSort` with a
total, transitive comparison on the key: any stable sort by a total preorder
on the key yields the same list, so the two agree element by element.
-/

namespace Yr

/-- A scalar value emitted to a sensor: either the raw string taken from the
parsed XML document, or a floating-point number (Python `float(...)`,
modelled exactly as a rational). -/
inductive ScalarValue where
  | str (s : String)
  | flt (q : ℚ)
deriving DecidableEq, Repr

/-- Numeric value of a decimal digit character. -/
def digitVal (c : Char) : Nat := c.toNat - 48

/-- Natural number denoted by a list of decimal digit characters. -/
def natOfDigits (l : List Char) : Nat := l.foldl (fun n c => 10 * n + digitVal c) 0

/-- Model of Python `float(s)` on well-formed decimal strings (optional
leading minus, digits, optional fractional part), which is the only way the
source applies it (to the `@deg` attribute of the document). The value is
kept exact as a rational. -/
def pyFloat (s : String) : ℚ :=
  let neg := s.startsWith "-"
  let t := if neg then s.drop 1 else s
  let sign : ℚ := if neg then -1 else 1
  match t.splitOn "." with
  | [ip] => sign * (natOfDigits ip.data : ℚ)
  | [ip, fp] =>
      sign * ((natOfDigits ip.data : ℚ) + (natOfDigits fp.data : ℚ) / ((10 : ℚ) ^ fp.length))
  | _ => 0

/-- Attribute map of one variable inside a time entry's `location` dict
(e.g. `[("@value", "5.2")]`), as produced by `xmltodict`. -/
abbrev AttrMap : Type := List (String × String)

/-- Python `attrs[k]` on the attribute dict, as an `Option` (a missing key,
which would raise `KeyError` in the source, is `none`). -/
def getAttr (attrs : AttrMap) (k : String) : Option String :=
  (List.find? (fun p => p.1 = k) attrs).map (fun p => p.2)

/-- The `if`/`elif` extraction chain of `YrData.async_update` (lines 239-252):
given the sensor type and the variable's attribute dict, the value assigned to
`new_state`. Every branch reads one fixed attribute; only `windDirection`
coerces it with `float(...)`. -/
def extractValue (typ : String) (attrs : AttrMap) : Option ScalarValue :=
  if typ = "precipitation" then (getAttr attrs "@value").map ScalarValue.str
  else if typ = "symbol" then (getAttr attrs "@number").map ScalarValue.str
  else if typ = "temperature" ∨ typ = "pressure" ∨ typ = "humidity"
        ∨ typ = "dewpointTemperature" then
    (getAttr attrs "@value").map ScalarValue.str
  else if typ = "windSpeed" ∨ typ = "windGust" then
    (getAttr attrs "@mps").map ScalarValue.str
  else if typ = "windDirection" then
    (getAttr attrs "@deg").map (fun s => ScalarValue.flt (pyFloat s))
  else if typ = "fog" ∨ typ = "cloudiness" ∨ typ = "lowClouds"
        ∨ typ = "mediumClouds" ∨ typ = "highClouds" then
    (getAttr attrs "@percent").map ScalarValue.str
  else none

/-- The keys of the `SENSOR_TYPES` table: every sensor type the platform
schema admits. -/
def sensorTypeNames : List String :=
  ["symbol", "precipitation", "temperature", "windSpeed", "windGust",
   "pressure", "windDirection", "humidity", "fog", "cloudiness",
   "lowClouds", "mediumClouds", "highClouds", "dewpointTemperature"]

/-- Written from the spec's wording (section 4.1 item 5), for comparison with
the code's chain: the raw attribute each non-windDirection variable is read
from. -/
def specRawField (typ : String) : Option String :=
  if typ = "precipitation" ∨ typ = "temperature" ∨ typ = "pressure"
      ∨ typ = "humidity" ∨ typ = "dewpointTemperature" then some "@value"
  else if typ = "symbol" then some "@number"
  else if typ = "windSpeed" ∨ typ = "windGust" then some "@mps"
  else if typ = "fog" ∨ typ = "cloudiness" ∨ typ = "lowClouds"
      ∨ typ = "mediumClouds" ∨ typ = "highClouds" then some "@percent"
  else none

/-- Written from the spec's wording: windDirection is the `@deg` attribute
explicitly coerced to floating point; every other variable is its raw
attribute emitted exactly as it appears in the document. -/
def specExtractValue (typ : String) (attrs : AttrMap) : Option ScalarValue :=
  if typ = "windDirection" then
    (getAttr attrs "@deg").map (fun s => ScalarValue.flt (pyFloat s))
  else (specRawField typ).bind (fun f => (getAttr attrs f).map ScalarValue.str)

/-- One `<time>` entry of the parsed forecast document: its validity interval
(`@from`/`@to`, parsed to seconds) and its `location` dict mapping variable
names to attribute dicts, in document order. -/
structure TimeEntry where
  validFrom : Int
  validTo : Int
  location : List (String × AttrMap)
deriving DecidableEq, Repr

/-- Python `dev.type in loc_data`: the variable's presence in the entry's
`location` dict. -/
def containsVar (e : TimeEntry) (typ : String) : Bool :=
  e.location.any (fun p => p.1 = typ)

/-- Python `loc_data[dev.type]`. -/
def lookupVar (e : TimeEntry) (typ : String) : Option AttrMap :=
  (List.find? (fun p => p.1 = typ) e.location).map (fun p => p.2)

/-- The distance score of lines 220-223: the variable is named
`average_dist` in the source but is the SUM of the two absolute deltas from
`forecast_time`, in seconds. -/
def average_dist (e : TimeEntry) (forecast_time : Int) : Int :=
  |e.validTo - forecast_time| + |e.validFrom - forecast_time|

/-- The filter-and-score loop of lines 210-223: entries with
`now >= valid_to` are skipped, the rest are paired with their score in
document order. -/
def scoredEntries (entries : List TimeEntry) (now forecast_time : Int) :
    List (Int × TimeEntry) :=
  (entries.filter (fun e => now < e.validTo)).map
    (fun e => (average_dist e forecast_time, e))

/-- `ordered_entries` after `ordered_entries.sort(key=lambda item: item[0])`
(line 225): the scored list stably sorted ascending by score. -/
def ordered_entries (entries : List TimeEntry) (now forecast_time : Int) :
    List (Int × TimeEntry) :=
  (scoredEntries entries now forecast_time).mergeSort (fun a b => a.1 ≤ b.1)

/-- The inner `for (_, selected_time_entry) in ordered_entries` loop of one
device (lines 234-254): skip entries whose `location` does not contain the
device's type, stop (`break`) at the first that does. Returns that entry. -/
def scanFirst (ordered : List (Int × TimeEntry)) (typ : String) :
    Option TimeEntry :=
  match ordered with
  | [] => none
  | (_, e) :: rest => if containsVar e typ then some e else scanFirst rest typ

/-- Extraction step once an entry containing the variable was selected:
`loc_data = selected_time_entry['location']` then the `if`/`elif` chain. -/
def extractFromEntry (typ : String) (e : TimeEntry) : Option ScalarValue :=
  match lookupVar e typ with
  | some attrs => extractValue typ attrs
  | none => none

/-- The value `new_state` holds after the inner loop for one device: `None`
until the first entry containing the type is reached, then whatever the
extraction chain produces from that entry. -/
def selectValue (ordered : List (Int × TimeEntry)) (typ : String) :
    Option ScalarValue :=
  match scanFirst ordered typ with
  | some e => extractFromEntry typ e
  | none => none

/-- A `YrSensor` as the selector sees it: its `type` and its current
`_state`. -/
structure Device where
  type : String
  state : Option ScalarValue
deriving DecidableEq, Repr

/-- Lines 256-259 for one device: if `new_state != dev._state` the state is
replaced and an `async_update_ha_state` task is appended (the `Bool`);
otherwise the device is untouched and no task is created. -/
def updateDevice (ordered : List (Int × TimeEntry)) (dev : Device) :
    Device × Bool :=
  let new_state := selectValue ordered dev.type
  if new_state ≠ dev.state then ({ dev with state := new_state }, true)
  else (dev, false)

/-- The whole `# Update all devices` block (lines 229-259): guarded by
`if ordered_entries:`, each device is updated in turn. Each result pairs the
device's final state with whether an update task was dispatched for it. -/
def runSelection (entries : List TimeEntry) (now forecast_time : Int)
    (devices : List Device) : List (Device × Bool) :=
  let ordered := ordered_entries entries now forecast_time
  if ordered.isEmpty then devices.map (fun d => (d, false))
  else devices.map (fun d => updateDevice ordered d)

/-- A value in the tree produced by `xmltodict.parse`: a string, a dict
(association list in key order), or a list. -/
inductive XVal where
  | str (s : String)
  | dict (fields : List (String × XVal))
  | list (items : List XVal)

/-- Python `x == '@nextrun'` for a tree value: string comparison when `x` is
a string, `False` for any other shape (Python never equates a dict or list
with a string). -/
def isNextrunStr (x : XVal) : Bool :=
  match x with
  | .str s => s = "@nextrun"
  | _ => false

/-- Python `d[k]` on a dict value, as an `Option`; `none` also covers
subscripting a non-dict by a string key (`TypeError`), since both escape the
`except (ExpatError, IndexError)` handler identically. -/
def dictGet (v : XVal) (k : String) : Option XVal :=
  match v with
  | .dict fields => (List.find? (fun p => p.1 = k) fields).map (fun p => p.2)
  | _ => none

/-- The mutable fields of `YrData` that the parse stage touches: `self.data`
(the active document, initially `{}`) and `self._nextrun`. The source parses
the `@nextrun` string with `dt_util.parse_datetime`; the claims never depend
on the parsed form, so the raw string is stored. -/
structure YrState where
  data : XVal
  nextrun : Option String

/-- The state effect of `try_again` (line 168): `self._nextrun = None`. -/
def tryAgainState (st : YrState) : YrState := { st with nextrun := none }

/-- Result of the parse stage of `async_update` (lines 191-199): success, the
caught-and-retried path (`except (ExpatError, IndexError)` → `try_again`), or
an exception that the handler does not catch (`KeyError`/`TypeError`). -/
inductive Outcome where
  | ok (st : YrState)
  | retry (st : YrState)
  | uncaught (st : YrState)

/-- `self._nextrun = dt_util.parse_datetime(model['@nextrun'])` once `model`
has been fixed: a missing `@nextrun` key or a non-string value escapes the
handler (`KeyError`/`TypeError`). -/
def finishModel (m : XVal) (st : YrState) : Outcome :=
  match dictGet m "@nextrun" with
  | some (.str s) => .ok { st with nextrun := some s }
  | some _ => .uncaught st
  | none => .uncaught st

/-- The parse stage of `async_update` (lines 191-199), given the result of
`xmltodict.parse(text)` (`none` models `ExpatError`). Mirrors the Python
statement order: `self.data` is assigned BEFORE the metadata lookups, so the
later lookups run against the already-replaced state. `'@nextrun' not in
model` is Python membership: key membership on a dict, element membership on
a list, substring membership on a string; `model[0]` on an empty list raises
the caught `IndexError`, on a dict raises an uncaught `KeyError`, on an empty
string raises the caught `IndexError`, and string subscripting by
`'@nextrun'` afterwards raises an uncaught `TypeError`. -/
def parseStage (parseResult : Option XVal) (st : YrState) : Outcome :=
  match parseResult with
  | none => .retry (tryAgainState st)
  | some root =>
    match dictGet root "weatherdata" with
    | none => .uncaught st
    | some wd =>
      let st1 : YrState := { st with data := wd }
      match dictGet wd "meta" with
      | none => .uncaught st1
      | some meta =>
        match dictGet meta "model" with
        | none => .uncaught st1
        | some model =>
          match model with
          | .dict fields =>
            if fields.any (fun p => p.1 = "@nextrun") then
              finishModel (.dict fields) st1
            else .uncaught st1
          | .list items =>
            if items.any isNextrunStr then .uncaught st1
            else
              match items with
              | [] => .retry (tryAgainState st1)
              | m0 :: _ => finishModel m0 st1
          | .str s => if s.isEmpty then .retry (tryAgainState st1) else .uncaught st1

/-- `datetime.minute` of a time given in seconds since the epoch. -/
def minuteOfHour (t : Nat) : Nat := (t / 60) % 60

/-- `try_again` (lines 166-174): `nxt = utcnow() + timedelta(minutes=15)`;
the one-shot retry is scheduled only `if nxt.minute >= 15`. `now` is seconds
since the epoch; `nxt.minute` is `(nxt / 60) % 60`. Returns the scheduled
firing time when a retry is armed. -/
def try_again (now : Nat) : Option Nat :=
  let nxt := now + 15 * 60
  if 15 ≤ (nxt / 60) % 60 then some nxt else none

end Yr

namespace ZWaveConfig

/-- A JSON scalar in a device-config body or store: the schema admits only
booleans (`ignored`) and integers (`polling_intensity`). -/
inductive CfgVal where
  | b (b : Bool)
  | i (n : Int)
deriving DecidableEq, Repr

/-- One entity's device config: option name → value, in key order. -/
abbrev EntityCfg : Type := List (String × CfgVal)

/-- The stored device-config mapping: entity id → config. -/
abbrev Store : Type := List (String × EntityCfg)

/-- Lookup in an association list (Python `d.get(k)`). -/
def alGet {α : Type} (m : List (String × α)) (k : String) : Option α :=
  (List.find? (fun p => p.1 = k) m).map (fun p => p.2)

/-- Python `dict.update` for one key: overwrite in place if present, else
append. -/
def setKey (m : EntityCfg) (k : String) (v : CfgVal) : EntityCfg :=
  if m.any (fun p => p.1 = k) then
    m.map (fun p => if p.1 = k then (k, v) else p)
  else m ++ [(k, v)]

/-- Python `config.update(body)`: each body pair merged in order. -/
def mergeCfg (m : EntityCfg) (body : EntityCfg) : EntityCfg :=
  body.foldl (fun acc kv => setKey acc kv.1 kv.2) m

/-- Modelled from the spec: the fixed POST schema of the device-config view
(`ignored`: bool, `polling_intensity`: int); the view's own code is not in
this slice, only its tests. -/
def validOption : String × CfgVal → Bool
  | ("ignored", .b _) => true
  | ("polling_intensity", .i _) => true
  | _ => false

/-- Modelled from the spec: response of
`POST /api/config/zwave/device_config/{entity_id}` (the view's code is not in
this slice, only its tests): 400 on invalid JSON (`none` body), unknown
entity, or an option failing the schema; otherwise 200 with
`{"result": "ok"}`, and the store is rewritten with the body merged into the
entity's existing config. The status, the literal result body, and the store
passed to the injected write (when one occurs) are returned. -/
def postDeviceConfig (store : Store) (entity : String)
    (body : Option EntityCfg) : Nat × String × Option Store :=
  match body with
  | none => (400, "", none)
  | some opts =>
    if ¬ store.any (fun p => p.1 = entity) then (400, "", none)
    else if ¬ opts.all validOption then (400, "", none)
    else
      (200, "\x7b\"result\": \"ok\"\x7d",
        some (store.map (fun p =>
          if p.1 = entity then (p.1, mergeCfg p.2 opts) else p)))

end ZWaveConfig

namespace Yr

theorem scanFirst_mem {L : List (Int × TimeEntry)} {typ : String} {e : TimeEntry}
    (h : scanFirst L typ = some e) : ∃ s : Int, (s, e) ∈ L := by
  induction L with
  | nil => simp [scanFirst] at h
  | cons p rest ih =>
    obtain ⟨s, e'⟩ := p
    rw [scanFirst] at h
    split at h
    · obtain rfl : e' = e := Option.some.inj h
      exact ⟨s, List.mem_cons_self _ _⟩
    · obtain ⟨s', hm⟩ := ih h
      exact ⟨s', List.mem_cons_of_mem _ hm⟩

theorem mem_ordered_entries {entries : List TimeEntry} {now ft : Int}
    {p : Int × TimeEntry} (h : p ∈ ordered_entries entries now ft) :
    p.2 ∈ entries ∧ now < p.2.validTo ∧ p.1 = average_dist p.2 ft := by
  rw [ordered_entries, List.mem_mergeSort, scoredEntries] at h
  obtain ⟨e, he, rfl⟩ := List.mem_map.mp h
  rcases List.mem_filter.mp he with ⟨hmem, hlt⟩
  exact ⟨hmem, by simpa using hlt, rfl⟩

/-- C2: for every document, current instant and subscription, an entry with
`validTo ≤ now` is never the entry the scan selects: only entries with
`now < validTo` survive the filter and become candidates. -/
theorem yr_expired_entry_never_selected (entries : List TimeEntry)
    (now forecast_time : Int) (typ : String) (e : TimeEntry)
    (h : scanFirst (ordered_entries entries now forecast_time) typ = some e) :
    now < e.validTo := by
  obtain ⟨s, hm⟩ := scanFirst_mem h
  exact (mem_ordered_entries hm).2.1

/-- Witness for C2 at a concrete one-entry document. -/
theorem yr_expired_entry_never_selected_witness :
    scanFirst (ordered_entries
        [⟨0, 100, [("temperature", [("@value", "5")])]⟩] 10 10) "temperature"
      = some ⟨0, 100, [("temperature", [("@value", "5")])]⟩ ∧
    (10 : Int) < (100 : Int) := by
  have h : scanFirst (ordered_entries
      [⟨0, 100, [("temperature", [("@value", "5")])]⟩] 10 10) "temperature"
      = some ⟨0, 100, [("temperature", [("@value", "5")])]⟩ := by
    simp [ordered_entries, scoredEntries, average_dist, scanFirst, containsVar]
  exact ⟨h, yr_expired_entry_never_selected _ 10 10 "temperature" _ h⟩

/-- C3: the score paired with every retained entry is the SUM of the absolute
deltas of its two bounds from the target instant, in seconds — not their
average. -/
theorem yr_score_is_sum_of_abs_deltas (entries : List TimeEntry)
    (now forecast_time : Int) (p : Int × TimeEntry)
    (h : p ∈ ordered_entries entries now forecast_time) :
    p.1 = |p.2.validTo - forecast_time| + |p.2.validFrom - forecast_time| :=
  (mem_ordered_entries h).2.2

/-- Witness for C3 at a concrete one-entry document. -/
theorem yr_score_is_sum_of_abs_deltas_witness :
    ((100 : Int), (⟨0, 100, []⟩ : TimeEntry)) ∈ ordered_entries [⟨0, 100, []⟩] 10 50 ∧
    (100 : Int) = |(100 : Int) - 50| + |(0 : Int) - 50| := by
  have h : ((100 : Int), (⟨0, 100, []⟩ : TimeEntry)) ∈ ordered_entries [⟨0, 100, []⟩] 10 50 := by
    simp [ordered_entries, scoredEntries, average_dist]
  exact ⟨h, yr_score_is_sum_of_abs_deltas [⟨0, 100, []⟩] 10 50 _ h⟩

/-- C4: the retained entries are sorted ascending by score, and the sort is
stable: two entries of equal score that appear in a given order in the scored
(document-ordered) list appear in that same order after sorting. -/
theorem yr_entries_sorted_stable (entries : List TimeEntry)
    (now forecast_time : Int) :
    (ordered_entries entries now forecast_time).Pairwise
        (fun a b => a.1 ≤ b.1) ∧
    (∀ a b : Int × TimeEntry, a.1 = b.1 →
      List.Sublist [a, b] (scoredEntries entries now forecast_time) →
      List.Sublist [a, b] (ordered_entries entries now forecast_time)) := by
  have trans : ∀ a b c : Int × TimeEntry,
      (decide (a.1 ≤ b.1)) = true → (decide (b.1 ≤ c.1)) = true →
      (decide (a.1 ≤ c.1)) = true := by
    intro a b c hab hbc
    simp only [decide_eq_true_eq] at *
    exact le_trans hab hbc
  have total : ∀ a b : Int × TimeEntry,
      ((decide (a.1 ≤ b.1)) || (decide (b.1 ≤ a.1))) = true := by
    intro a b
    simp only [Bool.or_eq_true, decide_eq_true_eq]
    exact le_total a.1 b.1
  constructor
  · exact (List.sorted_mergeSort trans total _).imp
      (fun h => by simpa using h)
  · intro a b hab hsub
    exact List.pair_sublist_mergeSort trans total (by simp [hab]) hsub

/-- Witness for C4: two equal-score entries of a concrete document. -/
theorem yr_entries_sorted_stable_witness :
    ((100 : Int), (⟨0, 100, []⟩ : TimeEntry)).1
      = ((100 : Int), (⟨20, 120, []⟩ : TimeEntry)).1 ∧
    List.Sublist [((100 : Int), (⟨0, 100, []⟩ : TimeEntry)),
     ((100 : Int), (⟨20, 120, []⟩ : TimeEntry))]
      (scoredEntries [⟨0, 100, []⟩, ⟨20, 120, []⟩] 10 50) ∧
    List.Sublist [((100 : Int), (⟨0, 100, []⟩ : TimeEntry)),
     ((100 : Int), (⟨20, 120, []⟩ : TimeEntry))]
      (ordered_entries [⟨0, 100, []⟩, ⟨20, 120, []⟩] 10 50) := by
  have hsub : List.Sublist [((100 : Int), (⟨0, 100, []⟩ : TimeEntry)),
      ((100 : Int), (⟨20, 120, []⟩ : TimeEntry))]
      (scoredEntries [⟨0, 100, []⟩, ⟨20, 120, []⟩] 10 50) := by
    have : scoredEntries [⟨0, 100, []⟩, ⟨20, 120, []⟩] 10 50
        = [((100 : Int), (⟨0, 100, []⟩ : TimeEntry)),
           ((100 : Int), (⟨20, 120, []⟩ : TimeEntry))] := by
      simp [scoredEntries, average_dist]
    rw [this]
  exact ⟨rfl, hsub,
    (yr_entries_sorted_stable [⟨0, 100, []⟩, ⟨20, 120, []⟩] 10 50).2 _ _ rfl hsub⟩

theorem scanFirst_eq_find (L : List (Int × TimeEntry)) (typ : String) :
    scanFirst L typ
      = (L.find? (fun p => containsVar p.2 typ)).map (fun p => p.2) := by
  induction L with
  | nil => rfl
  | cons p rest ih =>
    obtain ⟨s, e⟩ := p
    rw [scanFirst]
    by_cases hc : containsVar e typ
    · simp [List.find?_cons_of_pos, hc]
    · rw [if_neg (by simp [hc]), ih,
        List.find?_cons_of_neg _ (by simp [hc])]

/-- C5: the selected value for a subscription comes from the first entry in
score-sorted order whose variable mapping contains the subscription's
variable (entries without it are skipped, the scan stops at the first match);
if no retained entry contains the variable the result is `none`. -/
theorem yr_first_match_selection (entries : List TimeEntry)
    (now forecast_time : Int) (typ : String) :
    (∀ p : Int × TimeEntry,
      (ordered_entries entries now forecast_time).find?
          (fun q => containsVar q.2 typ) = some p →
      selectValue (ordered_entries entries now forecast_time) typ
        = extractFromEntry typ p.2) ∧
    ((∀ e ∈ entries, now < e.validTo → containsVar e typ = false) →
      selectValue (ordered_entries entries now forecast_time) typ = none) := by
  constructor
  · intro p hp
    simp [selectValue, scanFirst_eq_find, hp]
  · intro hall
    have hf : (ordered_entries entries now forecast_time).find?
        (fun q => containsVar q.2 typ) = none := by
      rw [List.find?_eq_none]
      intro x hx
      obtain ⟨hmem, hlt, -⟩ := mem_ordered_entries hx
      simp [hall x.2 hmem hlt]
    simp [selectValue, scanFirst_eq_find, hf]

/-- Witness for C5 at a concrete one-entry document. -/
theorem yr_first_match_selection_witness :
    (ordered_entries [⟨0, 100, [("symbol", [("@number", "9")])]⟩] 10 10).find?
        (fun q => containsVar q.2 "symbol")
      = some (100, ⟨0, 100, [("symbol", [("@number", "9")])]⟩) ∧
    selectValue (ordered_entries [⟨0, 100, [("symbol", [("@number", "9")])]⟩] 10 10)
        "symbol"
      = extractFromEntry "symbol" ⟨0, 100, [("symbol", [("@number", "9")])]⟩ := by
  have h : (ordered_entries [⟨0, 100, [("symbol", [("@number", "9")])]⟩] 10 10).find?
      (fun q => containsVar q.2 "symbol")
      = some (100, ⟨0, 100, [("symbol", [("@number", "9")])]⟩) := by
    simp [ordered_entries, scoredEntries, average_dist, containsVar]
  exact ⟨h, (yr_first_match_selection _ 10 10 "symbol").1 _ h⟩

/-- C6: the extraction rule is fixed by variable name and matches the spec's
table exactly: windDirection is the float coercion of `@deg`, every other
variable is its mapped raw attribute emitted unmodified as a string. -/
theorem yr_extraction_policy :
    (∀ typ ∈ sensorTypeNames, ∀ attrs : AttrMap,
      extractValue typ attrs = specExtractValue typ attrs) ∧
    (∀ (attrs : AttrMap) (s : String), getAttr attrs "@deg" = some s →
      extractValue "windDirection" attrs = some (ScalarValue.flt (pyFloat s))) := by
  constructor
  · intro typ htyp attrs
    fin_cases htyp <;> rfl
  · intro attrs s hs
    simp [extractValue, hs]

/-- Witness for C6 at concrete attribute maps. -/
theorem yr_extraction_policy_witness :
    ("temperature" ∈ sensorTypeNames) ∧
    extractValue "temperature" [("@value", "5.2")]
      = specExtractValue "temperature" [("@value", "5.2")] ∧
    getAttr [("@deg", "288.5")] "@deg" = some "288.5" ∧
    extractValue "windDirection" [("@deg", "288.5")]
      = some (ScalarValue.flt (pyFloat "288.5")) := by
  have hmem : "temperature" ∈ sensorTypeNames := by simp [sensorTypeNames]
  exact ⟨hmem, yr_extraction_policy.1 "temperature" hmem _, rfl,
    yr_extraction_policy.2 [("@deg", "288.5")] "288.5" rfl⟩

/-- C7: an update task is dispatched for a device if and only if the newly
selected value differs from the previously held one (values compared exactly
as extracted); when they are equal, the device's stored state is untouched
and no task is created. -/
theorem yr_dispatch_iff_changed (L : List (Int × TimeEntry)) (dev : Device) :
    ((updateDevice L dev).2 = true ↔ selectValue L dev.type ≠ dev.state) ∧
    (selectValue L dev.type = dev.state → updateDevice L dev = (dev, false)) ∧
    ((updateDevice L dev).2 = true →
      (updateDevice L dev).1.state = selectValue L dev.type) := by
  by_cases h : selectValue L dev.type = dev.state <;> simp [updateDevice, h]

/-- Witness for C7 at a concrete device and entry list. -/
theorem yr_dispatch_iff_changed_witness :
    ((updateDevice [] ⟨"temperature", some (ScalarValue.str "5")⟩).2 = true ↔
      selectValue [] "temperature" ≠ some (ScalarValue.str "5")) ∧
    (selectValue [] "temperature" = some (ScalarValue.str "5") →
      updateDevice [] ⟨"temperature", some (ScalarValue.str "5")⟩
        = (⟨"temperature", some (ScalarValue.str "5")⟩, false)) ∧
    ((updateDevice [] ⟨"temperature", some (ScalarValue.str "5")⟩).2 = true →
      (updateDevice [] ⟨"temperature", some (ScalarValue.str "5")⟩).1.state
        = selectValue [] "temperature") :=
  yr_dispatch_iff_changed [] ⟨"temperature", some (ScalarValue.str "5")⟩

/-- C10: when no entry survives the expiry filter, the update block is
skipped entirely: every device keeps its previous state and no update task
is dispatched (devices are not reset to "no data"). -/
theorem yr_empty_retained_no_updates (entries : List TimeEntry)
    (now forecast_time : Int) (devices : List Device)
    (h : entries.filter (fun e => now < e.validTo) = []) :
    runSelection entries now forecast_time devices
      = devices.map (fun d => (d, false)) := by
  have hs : scoredEntries entries now forecast_time = [] := by
    rw [scoredEntries, h]; rfl
  simp [runSelection, ordered_entries, hs]

/-- Witness for C10: a document whose only entry is expired. -/
theorem yr_empty_retained_no_updates_witness :
    ([⟨0, 5, []⟩] : List TimeEntry).filter (fun e => (10 : Int) < e.validTo) = [] ∧
    runSelection [⟨0, 5, []⟩] 10 10
        [⟨"temperature", some (ScalarValue.str "2")⟩]
      = [⟨"temperature", some (ScalarValue.str "2")⟩].map (fun d => (d, false)) := by
  have h : ([⟨0, 5, []⟩] : List TimeEntry).filter (fun e => (10 : Int) < e.validTo) = [] := by
    decide
  exact ⟨h, yr_empty_retained_no_updates [⟨0, 5, []⟩] 10 10 _ h⟩

/-- C8: on a failure, `try_again` arms the one-shot retry at `now + 15min`
exactly when the minute-of-hour of that retry time is at least 15; for some
failure times (any whose retry time lands in the first 15 minutes of an
hour) no retry is armed at all. -/
theorem yr_retry_gating :
    (∀ now : Nat, try_again now
        = if 15 ≤ minuteOfHour (now + 15 * 60) then some (now + 15 * 60)
          else none) ∧
    (∃ n : Nat, try_again n = none) := by
  refine ⟨fun now => rfl, ⟨45 * 60, by decide⟩⟩

/-- C1 counterexample: a refresh whose body parses but whose metadata
extraction fails with the caught `IndexError` (empty model list) reaches the
15-minute-retry path with `self.data` already replaced by the newly parsed
document, so the previously active document is NOT left unchanged. -/
theorem yr_failed_refresh_mutates_data_counterexample :
    parseStage
        (some (XVal.dict [("weatherdata", XVal.dict
          [("meta", XVal.dict [("model", XVal.list [])]),
           ("product", XVal.str "new")])]))
        ⟨XVal.dict [("product", XVal.str "old")], none⟩
      = Outcome.retry
          ⟨XVal.dict [("meta", XVal.dict [("model", XVal.list [])]),
            ("product", XVal.str "new")], none⟩ ∧
    XVal.dict [("meta", XVal.dict [("model", XVal.list [])]),
        ("product", XVal.str "new")]
      ≠ XVal.dict [("product", XVal.str "old")] := by
  exact ⟨rfl, by simp⟩

/-- C1 amended: a refresh whose response body fails to parse (`ExpatError`)
leaves `self.data` unchanged; but when the body parses and metadata
extraction then fails on the caught retry path, `self.data` has already been
replaced wholesale by the newly parsed `weatherdata` document (a complete
document, never a partial mutation of the old one). -/
theorem yr_failed_refresh_data_behavior (pr : Option XVal) (st st' : YrState)
    (h : parseStage pr st = Outcome.retry st') :
    (pr = none → st' = tryAgainState st) ∧
    (∀ root, pr = some root → ∃ wd, dictGet root "weatherdata" = some wd ∧
      st' = tryAgainState { st with data := wd }) := by
  cases pr with
  | none =>
    unfold parseStage at h
    injection h with h'
    exact ⟨fun _ => h'.symm, fun root hr => Option.noConfusion hr⟩
  | some root =>
    refine ⟨fun hn => Option.noConfusion hn, fun r hr => ?_⟩
    injection hr with hrr
    subst hrr
    unfold parseStage at h
    dsimp only at h
    cases hwd : dictGet root "weatherdata" with
    | none => rw [hwd] at h; dsimp only at h; injection h
    | some wd =>
      rw [hwd] at h
      dsimp only at h
      refine ⟨wd, rfl, ?_⟩
      cases hm : dictGet wd "meta" with
      | none => rw [hm] at h; dsimp only at h; injection h
      | some meta =>
        rw [hm] at h
        dsimp only at h
        cases hmo : dictGet meta "model" with
        | none => rw [hmo] at h; dsimp only at h; injection h
        | some model =>
          rw [hmo] at h
          dsimp only at h
          cases model with
          | dict fields =>
            dsimp only at h
            by_cases hn : fields.any (fun p => p.1 = "@nextrun")
            · rw [if_pos hn] at h
              unfold finishModel at h
              cases hfm : dictGet (XVal.dict fields) "@nextrun" with
              | none => rw [hfm] at h; injection h
              | some v =>
                rw [hfm] at h
                cases v with
                | str s => injection h
                | dict fs2 => injection h
                | list its => injection h
            · rw [if_neg hn] at h
              injection h
          | list items =>
            dsimp only at h
            by_cases hn : items.any isNextrunStr
            · rw [if_pos hn] at h; injection h
            · rw [if_neg hn] at h
              cases items with
              | nil => injection h with h'; exact h'.symm
              | cons m0 rest =>
                dsimp only at h
                unfold finishModel at h
                cases hfm : dictGet m0 "@nextrun" with
                | none => rw [hfm] at h; injection h
                | some v =>
                  rw [hfm] at h
                  cases v with
                  | str s => injection h
                  | dict fs2 => injection h
                  | list its => injection h
          | str s =>
            dsimp only at h
            by_cases hs : s.isEmpty
            · rw [if_pos hs] at h
              injection h with h'
              exact h'.symm
            · rw [if_neg hs] at h; injection h

/-- Witness for the amended C1 at the concrete empty-model-list input. -/
theorem yr_failed_refresh_data_behavior_witness :
    ((some (XVal.dict [("weatherdata", XVal.dict
        [("meta", XVal.dict [("model", XVal.list [])])])]) : Option XVal)
      = none →
      (⟨XVal.dict [("meta", XVal.dict [("model", XVal.list [])])], none⟩ : YrState)
        = tryAgainState ⟨XVal.dict [("product", XVal.str "old")], some "t"⟩) ∧
    (∀ root,
      (some (XVal.dict [("weatherdata", XVal.dict
        [("meta", XVal.dict [("model", XVal.list [])])])]) : Option XVal)
        = some root →
      ∃ wd, dictGet root "weatherdata" = some wd ∧
        (⟨XVal.dict [("meta", XVal.dict [("model", XVal.list [])])], none⟩ : YrState)
          = tryAgainState { data := wd, nextrun := some "t" }) :=
  yr_failed_refresh_data_behavior
    (some (XVal.dict [("weatherdata", XVal.dict
      [("meta", XVal.dict [("model", XVal.list [])])])]))
    ⟨XVal.dict [("product", XVal.str "old")], some "t"⟩
    ⟨XVal.dict [("meta", XVal.dict [("model", XVal.list [])])], none⟩
    rfl

end Yr

namespace ZWaveConfig

theorem alGet_map_other (store : Store) (f : EntityCfg → EntityCfg)
    (entity e : String) (hne : e ≠ entity) :
    alGet (store.map (fun p => if p.1 = entity then (p.1, f p.2) else p)) e
      = alGet store e := by
  induction store with
  | nil => rfl
  | cons p rest ih =>
    obtain ⟨k, c⟩ := p
    by_cases hk : k = entity
    · subst hk
      simp only [List.map_cons, if_pos rfl]
      rw [alGet, alGet, List.find?_cons_of_neg _ (by simp [Ne.symm hne]),
        List.find?_cons_of_neg _ (by simp [Ne.symm hne])]
      exact ih
    · simp only [List.map_cons, if_neg hk]
      by_cases hke : k = e
      · subst hke
        rw [alGet, alGet, List.find?_cons_of_pos _ (by simp),
          List.find?_cons_of_pos _ (by simp)]
      · rw [alGet, alGet, List.find?_cons_of_neg _ (by simp [hke]),
          List.find?_cons_of_neg _ (by simp [hke])]
        exact ih

theorem alGet_map_self (store : Store) (f : EntityCfg → EntityCfg)
    (entity : String) (cfg : EntityCfg) (h : alGet store entity = some cfg) :
    alGet (store.map (fun p => if p.1 = entity then (p.1, f p.2) else p)) entity
      = some (f cfg) := by
  induction store with
  | nil => simp [alGet] at h
  | cons p rest ih =>
    obtain ⟨k, c⟩ := p
    by_cases hk : k = entity
    · subst hk
      rw [alGet, List.find?_cons_of_pos _ (by simp)] at h
      obtain rfl : c = cfg := Option.some.inj h
      simp only [List.map_cons, if_pos rfl]
      rw [alGet, List.find?_cons_of_pos _ (by simp)]
      rfl
    · rw [alGet, List.find?_cons_of_neg _ (by simp [hk])] at h
      simp only [List.map_cons, if_neg hk]
      rw [alGet, List.find?_cons_of_neg _ (by simp [hk])]
      exact ih h

theorem alGet_cons (k1 : String) (c : CfgVal) (rest : EntityCfg) (q : String) :
    alGet ((k1, c) :: rest) q = if k1 = q then some c else alGet rest q := by
  by_cases h : k1 = q
  · rw [alGet, List.find?_cons_of_pos _ (by simp [h]), if_pos h]
    rfl
  · rw [alGet, List.find?_cons_of_neg _ (by simp [h]), if_neg h]
    rfl

theorem alGet_map_replace_other (rest : EntityCfg) (k : String) (v : CfgVal)
    (q : String) (hq : q ≠ k) :
    alGet (rest.map (fun p => if p.1 = k then (k, v) else p)) q
      = alGet rest q := by
  induction rest with
  | nil => rfl
  | cons p tail ih =>
    obtain ⟨k1, c⟩ := p
    by_cases h1 : k1 = k
    · simp [h1, alGet_cons, Ne.symm hq, ih]
    · by_cases hq1 : k1 = q <;> simp [h1, hq1, hq, alGet_cons, ih]

theorem alGet_map_replace_self (rest : EntityCfg) (k : String) (v : CfgVal)
    (hany : rest.any (fun p => p.1 = k) = true) :
    alGet (rest.map (fun p => if p.1 = k then (k, v) else p)) k = some v := by
  induction rest with
  | nil => simp at hany
  | cons p tail ih =>
    obtain ⟨k1, c⟩ := p
    by_cases h1 : k1 = k
    · simp [h1, alGet_cons]
    · have htail : tail.any (fun p => p.1 = k) = true := by
        rw [List.any_cons] at hany
        simpa [h1] using hany
      simp [h1, alGet_cons, ih htail]

theorem alGet_none_of_not_any (m : EntityCfg) (k : String)
    (h : m.any (fun p => p.1 = k) = false) : alGet m k = none := by
  rw [alGet, List.find?_eq_none.mpr]
  · rfl
  · intro p hp
    have := List.any_eq_false.mp h p hp
    simpa using this

theorem alGet_setKey (m : EntityCfg) (k : String) (v : CfgVal) (q : String) :
    alGet (setKey m k v) q = if q = k then some v else alGet m q := by
  rw [setKey]
  by_cases hany : m.any (fun p => p.1 = k)
  · rw [if_pos hany]
    by_cases hq : q = k
    · subst hq
      rw [alGet_map_replace_self m q v hany, if_pos rfl]
    · rw [alGet_map_replace_other m k v q hq, if_neg hq]
  · rw [if_neg hany, alGet, List.find?_append]
    by_cases hq : q = k
    · subst hq
      rw [show List.find? (fun p => p.1 = q) m = none from
        List.find?_eq_none.mpr (fun p hp => by
          simpa using List.any_eq_false.mp (Bool.eq_false_iff.mpr hany) p hp)]
      simp
    · rw [show List.find? (fun p => (decide (p.1 = q))) [(k, v)] = none from by
        simp [Ne.symm hq]]
      rw [if_neg hq, alGet]
      rw [Option.or_none]

theorem alGet_mergeCfg_not_mem (cfg opts : EntityCfg) (k : String)
    (h : opts.any (fun p => p.1 = k) = false) :
    alGet (mergeCfg cfg opts) k = alGet cfg k := by
  induction opts generalizing cfg with
  | nil => rfl
  | cons p rest ih =>
    obtain ⟨k1, v1⟩ := p
    rw [List.any_cons, Bool.or_eq_false_iff] at h
    have hne : k ≠ k1 := by
      intro hk
      subst hk
      simp at h
    rw [mergeCfg, List.foldl_cons]
    have step := ih (setKey cfg k1 v1) h.2
    rw [mergeCfg] at step
    rw [step, alGet_setKey, if_neg hne]

theorem alGet_mergeCfg_mem (cfg opts : EntityCfg) (k : String) (v : CfgVal)
    (hnd : (opts.map Prod.fst).Nodup) (hmem : (k, v) ∈ opts) :
    alGet (mergeCfg cfg opts) k = some v := by
  induction opts generalizing cfg with
  | nil => cases hmem
  | cons p rest ih =>
    obtain ⟨k1, v1⟩ := p
    rw [List.map_cons, List.nodup_cons] at hnd
    rw [mergeCfg, List.foldl_cons]
    rcases List.mem_cons.mp hmem with heq | hrest
    · have hk : k = k1 := congrArg Prod.fst heq
      have hv : v = v1 := congrArg Prod.snd heq
      subst hk
      subst hv
      have hnot : rest.any (fun p => p.1 = k) = false := by
        rw [List.any_eq_false]
        intro p hp
        simp only [decide_eq_true_eq]
        intro hpk
        exact hnd.1 (List.mem_map.mpr ⟨p, hp, hpk⟩)
      have step := alGet_mergeCfg_not_mem (setKey cfg k v) rest k hnot
      rw [mergeCfg] at step
      rw [step, alGet_setKey, if_pos rfl]
    · exact ih (setKey cfg k1 v1) hnd.2 hrest

/-- C9: a POST with a schema-valid body for a known entity returns 200 with
`{"result": "ok"}` and writes the store with the body merged into that
entity's existing config: other entities' configs are unchanged, the
entity's keys outside the body are unchanged, and each body option is
present with its new value. -/
theorem zwave_post_merges_config (store : Store) (entity : String)
    (opts cfg : EntityCfg)
    (hknown : alGet store entity = some cfg)
    (hvalid : opts.all validOption = true)
    (hnd : (opts.map Prod.fst).Nodup) :
    ∃ store',
      postDeviceConfig store entity (some opts)
        = (200, "\x7b\"result\": \"ok\"\x7d", some store') ∧
      alGet store' entity = some (mergeCfg cfg opts) ∧
      (∀ e, e ≠ entity → alGet store' e = alGet store e) ∧
      (∀ k, opts.any (fun p => p.1 = k) = false →
        alGet (mergeCfg cfg opts) k = alGet cfg k) ∧
      (∀ k v, (k, v) ∈ opts → alGet (mergeCfg cfg opts) k = some v) := by
  have hany : store.any (fun p => p.1 = entity) = true := by
    rw [alGet] at hknown
    obtain ⟨q, hq, -⟩ := Option.map_eq_some'.mp hknown
    rw [List.any_eq_true]
    have hqpred := List.find?_some hq
    exact ⟨q, List.mem_of_find?_eq_some hq, hqpred⟩
  refine ⟨store.map (fun p => if p.1 = entity then (p.1, mergeCfg p.2 opts) else p),
    ?_, ?_, ?_, ?_, ?_⟩
  · rw [postDeviceConfig]
    rw [if_neg (by simp [hany]), if_neg (by simp [hvalid])]
  · exact alGet_map_self store (fun c => mergeCfg c opts) entity cfg hknown
  · intro e hne
    exact alGet_map_other store (fun c => mergeCfg c opts) entity e hne
  · intro k hk
    exact alGet_mergeCfg_not_mem cfg opts k hk
  · intro k v hmem
    exact alGet_mergeCfg_mem cfg opts k v hnd hmem

/-- Witness for C9: the concrete scenario of `test_update_device_config`. -/
theorem zwave_post_merges_config_witness :
    alGet [("hello.beer", [("ignored", CfgVal.b true)]),
           ("other.entity", [("polling_intensity", CfgVal.i 2)])] "hello.beer"
      = some [("ignored", CfgVal.b true)] ∧
    ([("polling_intensity", CfgVal.i 2)] : EntityCfg).all validOption = true ∧
    (([("polling_intensity", CfgVal.i 2)] : EntityCfg).map Prod.fst).Nodup ∧
    (∃ store',
      postDeviceConfig
          [("hello.beer", [("ignored", CfgVal.b true)]),
           ("other.entity", [("polling_intensity", CfgVal.i 2)])]
          "hello.beer" (some [("polling_intensity", CfgVal.i 2)])
        = (200, "\x7b\"result\": \"ok\"\x7d", some store') ∧
      alGet store' "hello.beer"
        = some (mergeCfg [("ignored", CfgVal.b true)]
            [("polling_intensity", CfgVal.i 2)]) ∧
      (∀ e, e ≠ "hello.beer" →
        alGet store' e
          = alGet [("hello.beer", [("ignored", CfgVal.b true)]),
              ("other.entity", [("polling_intensity", CfgVal.i 2)])] e) ∧
      (∀ k, ([("polling_intensity", CfgVal.i 2)] : EntityCfg).any
          (fun p => p.1 = k) = false →
        alGet (mergeCfg [("ignored", CfgVal.b true)]
            [("polling_intensity", CfgVal.i 2)]) k
          = alGet [("ignored", CfgVal.b true)] k) ∧
      (∀ k v, (k, v) ∈ ([("polling_intensity", CfgVal.i 2)] : EntityCfg) →
        alGet (mergeCfg [("ignored", CfgVal.b true)]
            [("polling_intensity", CfgVal.i 2)]) k = some v)) :=
  ⟨rfl, rfl, by simp,
    zwave_post_merges_config _ "hello.beer" _ _ rfl rfl (by simp)⟩

end ZWaveConfig
